import Mathlib

/-
Shallow embedding of the VaaniCare government-scheme finder
(src/government/government.py and src/government/main.py).

The external search provider (the DDGS client) is modelled as a function
from a query string and a maximum result count to either an error or a
list of raw result rows; the Python `for r in ddgs.text(...)` loop with
exception propagation becomes an explicit loop in the `Except` monad.
The Python dict `aggregated` (insertion-ordered, insert-if-absent) is
modelled as an association list to which new keys are appended.
-/

namespace VaaniCare

/-- Test whether the first character list occurs at the head of the second. -/
def startsList : List Char → List Char → Bool
  | [], _ => true
  | _ :: _, [] => false
  | a :: as, b :: bs => a == b && startsList as bs

/-- Test whether the first character list occurs contiguously anywhere inside
the second; this is the semantics of the Python `in` operator on strings. -/
def subList : List Char → List Char → Bool
  | needle, [] => startsList needle []
  | needle, b :: bs => startsList needle (b :: bs) || subList needle bs

/-- Python `needle in haystack` on strings (contiguous substring test). -/
def strIn (needle haystack : String) : Bool :=
  subList needle.data haystack.data

/-- Spec-side host-suffix test (the tighter match the spec contrasts with the
substring match actually implemented): does `haystack` end with `needle`? -/
def strEndsIn (needle haystack : String) : Bool :=
  startsList needle.data.reverse haystack.data.reverse

/-- The module-level allow-list constant of government.py. -/
def ALLOWED_DOMAINS : List String :=
  ["gov.in",
   "kerala.gov.in",
   "scholarships.gov.in",
   "mygov.in",
   "india.gov.in",
   "cdc.kerala.gov.in",
   "dcescholarship.kerala.gov.in"]

/-- A raw result row from the search provider.  Each field models a key of the
Python dict that may be absent (`none`). -/
structure Row where
  title : Option String
  href : Option String
  body : Option String
deriving DecidableEq

/-- One aggregated result, as built at government.py lines 41-46. -/
structure SchemeResult where
  title : String
  url : String
  snippet : String
  source_query : String
deriving DecidableEq

/-- The request body model of main.py (pydantic UserProfile). -/
structure UserProfile where
  age : Int
  gender : String
  state : String
  income_bracket : String
  occupation : String
  category : String
deriving DecidableEq

/-- build_queries of government.py: four templated query strings. -/
def build_queries (user : UserProfile) : List String :=
  [user.state ++ " student scholarship government",
   user.state ++ " " ++ user.category ++ " scholarship government",
   "Central sector scholarship income government",
   user.state ++ " higher education scholarship official"]

/-- The Python test `any(domain in url for domain in ALLOWED_DOMAINS)`. -/
def allowedUrl (url : String) : Bool :=
  ALLOWED_DOMAINS.any (fun domain => strIn domain url)

/-- The Python expression `r.get("href", "")`. -/
def rowUrl (r : Row) : String :=
  r.href.getD ""

/-- The dict literal inserted at government.py lines 41-46. -/
def mkEntry (query : String) (r : Row) : SchemeResult :=
  ⟨r.title.getD "", rowUrl r, r.body.getD "", query⟩

/-- Lookup in the insertion-ordered accumulator; `(alookup u agg).isSome`
models the Python membership test `url in aggregated`. -/
def alookup (u : String) : List (String × SchemeResult) → Option SchemeResult
  | [] => none
  | (k, v) :: t => if k = u then some v else alookup u t

/-- The body of the inner `for r in ddgs.text(...)` loop: skip rows with an
empty url, skip rows matching no allowed domain, insert-if-absent keyed by
url (government.py lines 31-46). -/
def processRow (query : String) (agg : List (String × SchemeResult)) (r : Row) :
    List (String × SchemeResult) :=
  let url := rowUrl r
  if url = "" then agg
  else if allowedUrl url = false then agg
  else if (alookup url agg).isSome then agg
  else agg ++ [(url, mkEntry query r)]

/-- The outer `for query in queries` loop.  A provider error on any query
aborts the whole loop, as an uncaught Python exception would. -/
def searchLoop (provider : String → Nat → Except String (List Row)) (n : Nat) :
    List String → List (String × SchemeResult) →
    Except String (List (String × SchemeResult))
  | [], agg => Except.ok agg
  | q :: qs, agg =>
    match provider q n with
    | Except.error e => Except.error e
    | Except.ok rows => searchLoop provider n qs (rows.foldl (processRow q) agg)

/-- duckduckgo_scheme_search of government.py: build the queries, run the
aggregation loop, return `list(aggregated.values())`. -/
def duckduckgo_scheme_search (provider : String → Nat → Except String (List Row))
    (user : UserProfile) (max_results_per_query : Nat) :
    Except String (List SchemeResult) :=
  match searchLoop provider max_results_per_query (build_queries user) [] with
  | Except.error e => Except.error e
  | Except.ok agg => Except.ok (agg.map Prod.snd)

/-- The response envelope built by the find-schemes endpoint of main.py. -/
structure Envelope where
  query_state : String
  count : Nat
  schemes : List SchemeResult
  disclaimer : String
deriving DecidableEq

/-- The find-schemes endpoint of main.py: run the aggregator with the default
`max_results_per_query = 10` and wrap the result; a provider error propagates. -/
def find_schemes (provider : String → Nat → Except String (List Row))
    (user : UserProfile) : Except String Envelope :=
  match duckduckgo_scheme_search provider user 10 with
  | Except.error e => Except.error e
  | Except.ok schemes =>
    Except.ok ⟨user.state, schemes.length, schemes,
      "Final eligibility is determined by the concerned government department."⟩

/-- An infallible provider determined by a fixed rows-per-query table. -/
def pureProvider (rows : String → List Row) : String → Nat → Except String (List Row) :=
  fun q _ => Except.ok (rows q)

/-- The stream of (query, row) pairs an infallible provider feeds to the
accumulator, in processing order: queries in their fixed order, rows in
provider order within each query. -/
def queryStream (queries : List String) (rows : String → List Row) :
    List (String × Row) :=
  match queries with
  | [] => []
  | q :: qs => (rows q).map (fun r => (q, r)) ++ queryStream qs rows

/-- Folding the whole stream through the loop body. -/
def aggregate : List (String × Row) → List (String × SchemeResult) →
    List (String × SchemeResult)
  | [], agg => agg
  | p :: s, agg => aggregate s (processRow p.1 agg p.2)

/-- A row survives the two filters iff its url is nonempty and matches an
allowed domain. -/
def keepRow (r : Row) : Bool :=
  decide (rowUrl r ≠ "") && allowedUrl (rowUrl r)

/-- The first element of the stream that survives the filters and carries the
given url: the row that first surfaces that url. -/
def firstHit : List (String × Row) → String → Option (String × Row)
  | [], _ => none
  | p :: s, u => if keepRow p.2 = true ∧ rowUrl p.2 = u then some p else firstHit s u

/-- Urls of the stream rows that survive the filters, in processing order. -/
def keptUrls : List (String × Row) → List String
  | [] => []
  | p :: s => if keepRow p.2 = true then rowUrl p.2 :: keptUrls s else keptUrls s

/-- First-occurrence deduplication of a list of urls, given the urls already
seen. -/
def firstOccAux : List String → List String → List String
  | _, [] => []
  | seen, u :: rest =>
    if u ∈ seen then firstOccAux seen rest else u :: firstOccAux (u :: seen) rest

/-- A concrete profile used by the witnesses. -/
def keralaUser : UserProfile :=
  ⟨21, "F", "Kerala", "low", "student", "OBC"⟩

example : build_queries keralaUser =
    ["Kerala student scholarship government",
     "Kerala OBC scholarship government",
     "Central sector scholarship income government",
     "Kerala higher education scholarship official"] := rfl

/-- A concrete provider table: the first query returns two allowed rows, the
second returns a duplicate of the first url with different content. -/
def demoRows : String → List Row := fun q =>
  if q = "Kerala student scholarship government" then
    [⟨some "Portal A", some "https://scholarships.gov.in/x", some "first"⟩,
     ⟨some "Portal B", some "https://www.mygov.in/y", some "second"⟩]
  else if q = "Kerala OBC scholarship government" then
    [⟨some "Portal A2", some "https://scholarships.gov.in/x", some "dup"⟩]
  else []

example : duckduckgo_scheme_search (pureProvider demoRows) keralaUser 10 =
    Except.ok
      [⟨"Portal A", "https://scholarships.gov.in/x", "first",
        "Kerala student scholarship government"⟩,
       ⟨"Portal B", "https://www.mygov.in/y", "second",
        "Kerala student scholarship government"⟩] := rfl

theorem alookup_append (u : String) (l1 l2 : List (String × SchemeResult)) :
    alookup u (l1 ++ l2) =
      match alookup u l1 with
      | some v => some v
      | none => alookup u l2 := by
  induction l1 with
  | nil => simp [alookup]
  | cons p t ih =>
    obtain ⟨k, v⟩ := p
    by_cases hk : k = u <;> simp [alookup, hk, ih]

theorem alookup_eq_none_iff (u : String) (l : List (String × SchemeResult)) :
    alookup u l = none ↔ u ∉ l.map Prod.fst := by
  induction l with
  | nil => simp [alookup]
  | cons p t ih =>
    obtain ⟨k, v⟩ := p
    by_cases hk : k = u
    · subst hk
      simp [alookup]
    · simp only [alookup, if_neg hk, ih, List.map_cons, List.mem_cons]
      constructor
      · rintro h (h1 | h1)
        · exact hk h1.symm
        · exact h h1
      · intro h h1
        exact h (Or.inr h1)

theorem alookup_isSome_iff (u : String) (l : List (String × SchemeResult)) :
    (alookup u l).isSome = true ↔ u ∈ l.map Prod.fst := by
  rw [Option.isSome_iff_ne_none, ne_eq, alookup_eq_none_iff, not_not]

theorem alookup_mem (u : String) (e : SchemeResult) (l : List (String × SchemeResult))
    (h : alookup u l = some e) : (u, e) ∈ l := by
  induction l with
  | nil => simp [alookup] at h
  | cons p t ih =>
    obtain ⟨k, v⟩ := p
    by_cases hk : k = u
    · simp [alookup, hk] at h
      simp [hk, h]
    · simp [alookup, hk] at h
      exact List.mem_cons_of_mem _ (ih h)

theorem mem_alookup (u : String) (e : SchemeResult) (l : List (String × SchemeResult))
    (hnd : (l.map Prod.fst).Nodup) (h : (u, e) ∈ l) : alookup u l = some e := by
  induction l with
  | nil => simp at h
  | cons p t ih =>
    obtain ⟨k, v⟩ := p
    simp only [List.map_cons, List.nodup_cons] at hnd
    rcases List.mem_cons.mp h with h1 | h1
    · obtain ⟨rfl, rfl⟩ := Prod.mk.injEq .. ▸ (Prod.ext_iff.mp h1)
      simp [alookup]
    · have hku : k ≠ u := by
        rintro rfl
        exact hnd.1 (List.mem_map.mpr ⟨(k, e), h1, rfl⟩)
      simp [alookup, hku, ih hnd.2 h1]

theorem keepRow_iff (r : Row) :
    keepRow r = true ↔ rowUrl r ≠ "" ∧ allowedUrl (rowUrl r) = true := by
  simp [keepRow]

theorem processRow_skip (q : String) (agg : List (String × SchemeResult)) (r : Row)
    (h : keepRow r = false) : processRow q agg r = agg := by
  simp only [keepRow, Bool.and_eq_false_iff, decide_eq_false_iff_not, not_not] at h
  rcases h with h | h
  · simp [processRow, h]
  · by_cases hu : rowUrl r = "" <;> simp [processRow, hu, h]

theorem processRow_dup (q : String) (agg : List (String × SchemeResult)) (r : Row)
    (h : keepRow r = true) (h2 : (alookup (rowUrl r) agg).isSome = true) :
    processRow q agg r = agg := by
  rw [keepRow_iff] at h
  simp [processRow, h.1, h.2, h2]

theorem processRow_ins (q : String) (agg : List (String × SchemeResult)) (r : Row)
    (h : keepRow r = true) (h2 : alookup (rowUrl r) agg = none) :
    processRow q agg r = agg ++ [(rowUrl r, mkEntry q r)] := by
  rw [keepRow_iff] at h
  simp [processRow, h.1, h.2, h2]

theorem aggregate_append (s1 s2 : List (String × Row)) (agg : List (String × SchemeResult)) :
    aggregate (s1 ++ s2) agg = aggregate s2 (aggregate s1 agg) := by
  induction s1 generalizing agg with
  | nil => simp [aggregate]
  | cons p s ih => simp [aggregate, ih]

theorem aggregate_map_query (q : String) (rs : List Row) (agg : List (String × SchemeResult)) :
    aggregate (rs.map (fun r => (q, r))) agg = rs.foldl (processRow q) agg := by
  induction rs generalizing agg with
  | nil => simp [aggregate]
  | cons r rest ih => simp [aggregate, ih]

theorem searchLoop_pure (rows : String → List Row) (n : Nat) (queries : List String)
    (agg : List (String × SchemeResult)) :
    searchLoop (pureProvider rows) n queries agg =
      Except.ok (aggregate (queryStream queries rows) agg) := by
  induction queries generalizing agg with
  | nil => simp [searchLoop, queryStream, aggregate]
  | cons q qs ih =>
    simp [searchLoop, pureProvider, queryStream, ih, aggregate_append, aggregate_map_query]

theorem search_pure (rows : String → List Row) (user : UserProfile) (n : Nat) :
    duckduckgo_scheme_search (pureProvider rows) user n =
      Except.ok ((aggregate (queryStream (build_queries user) rows) []).map Prod.snd) := by
  simp [duckduckgo_scheme_search, searchLoop_pure]

/-- The invariant the accumulator maintains: keys are pairwise distinct, each
entry's url field equals its key, and every key is a nonempty url matching an
allowed domain. -/
def goodAgg (agg : List (String × SchemeResult)) : Prop :=
  (agg.map Prod.fst).Nodup ∧
  ∀ p ∈ agg, p.2.url = p.1 ∧ p.1 ≠ "" ∧ allowedUrl p.1 = true

theorem goodAgg_nil : goodAgg [] := by
  constructor
  · simp
  · simp

theorem goodAgg_processRow (q : String) (agg : List (String × SchemeResult)) (r : Row)
    (h : goodAgg agg) : goodAgg (processRow q agg r) := by
  by_cases hk : keepRow r = true
  · cases h2 : alookup (rowUrl r) agg with
    | some e =>
      rw [processRow_dup q agg r hk (by simp [h2])]
      exact h
    | none =>
      rw [processRow_ins q agg r hk h2]
      have hmem : rowUrl r ∉ agg.map Prod.fst := (alookup_eq_none_iff _ _).mp h2
      rw [keepRow_iff] at hk
      constructor
      · simp only [List.map_append, List.map_cons, List.map_nil]
        rw [List.nodup_append]
        refine ⟨h.1, List.nodup_singleton _, ?_⟩
        intro x hx hx1
        simp at hx1
        subst hx1
        exact hmem hx
      · intro p hp
        rcases List.mem_append.mp hp with h1 | h1
        · exact h.2 p h1
        · simp at h1
          subst h1
          exact ⟨rfl, hk.1, hk.2⟩
  · rw [processRow_skip q agg r (by simpa using hk)]
    exact h

theorem goodAgg_foldl (q : String) (rs : List Row) (agg : List (String × SchemeResult))
    (h : goodAgg agg) : goodAgg (rs.foldl (processRow q) agg) := by
  induction rs generalizing agg with
  | nil => simpa
  | cons r rest ih => exact ih _ (goodAgg_processRow q agg r h)

theorem goodAgg_aggregate (s : List (String × Row)) (agg : List (String × SchemeResult))
    (h : goodAgg agg) : goodAgg (aggregate s agg) := by
  induction s generalizing agg with
  | nil => simpa [aggregate]
  | cons p t ih => exact ih _ (goodAgg_processRow p.1 agg p.2 h)

theorem goodAgg_searchLoop (provider : String → Nat → Except String (List Row)) (n : Nat)
    (queries : List String) (agg out : List (String × SchemeResult))
    (h : searchLoop provider n queries agg = Except.ok out) (hg : goodAgg agg) :
    goodAgg out := by
  induction queries generalizing agg with
  | nil =>
    simp [searchLoop] at h
    subst h
    exact hg
  | cons q qs ih =>
    simp only [searchLoop] at h
    cases hp : provider q n with
    | error e => simp [hp] at h
    | ok rows =>
      rw [hp] at h
      exact ih _ h (goodAgg_foldl q rows agg hg)

theorem searchLoop_ok_provider (provider : String → Nat → Except String (List Row)) (n : Nat)
    (queries : List String) (agg out : List (String × SchemeResult))
    (h : searchLoop provider n queries agg = Except.ok out) :
    ∀ q ∈ queries, ∃ rows, provider q n = Except.ok rows := by
  induction queries generalizing agg with
  | nil => simp
  | cons q qs ih =>
    simp only [searchLoop] at h
    cases hp : provider q n with
    | error e => simp [hp] at h
    | ok rows =>
      rw [hp] at h
      intro q1 hq1
      rcases List.mem_cons.mp hq1 with h1 | h1
      · subst h1
        exact ⟨rows, hp⟩
      · exact ih _ h q1 h1

theorem search_ok_elim (provider : String → Nat → Except String (List Row))
    (user : UserProfile) (n : Nat) (out : List SchemeResult)
    (h : duckduckgo_scheme_search provider user n = Except.ok out) :
    ∃ agg, searchLoop provider n (build_queries user) [] = Except.ok agg ∧
      out = agg.map Prod.snd := by
  unfold duckduckgo_scheme_search at h
  cases hs : searchLoop provider n (build_queries user) [] with
  | error e => rw [hs] at h; cases h
  | ok agg =>
    rw [hs] at h
    exact ⟨agg, rfl, (Except.ok.injEq .. ▸ h).symm⟩

theorem alookup_aggregate (stream : List (String × Row)) (agg : List (String × SchemeResult))
    (u : String) :
    alookup u (aggregate stream agg) =
      match alookup u agg with
      | some e => some e
      | none => (firstHit stream u).map (fun p => mkEntry p.1 p.2) := by
  induction stream generalizing agg with
  | nil => cases h : alookup u agg <;> simp [aggregate, firstHit, h]
  | cons p s ih =>
    obtain ⟨q, r⟩ := p
    by_cases hk : keepRow r = true
    · by_cases hu : rowUrl r = u
      · cases h2 : alookup u agg with
        | some e =>
          rw [aggregate, processRow_dup q agg r hk (by simp [hu, h2]), ih, h2]
        | none =>
          rw [aggregate, processRow_ins q agg r hk (hu ▸ h2), ih]
          rw [alookup_append, h2]
          simp [alookup, hu, firstHit, hk]
      · have hstep : alookup u (processRow q agg r) = alookup u agg := by
          cases h2 : alookup (rowUrl r) agg with
          | some e => rw [processRow_dup q agg r hk (by simp [h2])]
          | none =>
            rw [processRow_ins q agg r hk h2, alookup_append]
            cases h3 : alookup u agg <;> simp [alookup, hu, h3]
        rw [aggregate, ih, hstep]
        have hfh : firstHit ((q, r) :: s) u = firstHit s u := by
          simp [firstHit, hu]
        rw [hfh]
    · rw [aggregate, processRow_skip q agg r (by simpa using hk), ih]
      have hfh : firstHit ((q, r) :: s) u = firstHit s u := by
        simp [firstHit, hk]
      rw [hfh]

theorem firstOccAux_congr (l : List String) (s1 s2 : List String)
    (h : ∀ x, x ∈ s1 ↔ x ∈ s2) : firstOccAux s1 l = firstOccAux s2 l := by
  induction l generalizing s1 s2 with
  | nil => simp [firstOccAux]
  | cons u rest ih =>
    by_cases hu : u ∈ s1
    · simp [firstOccAux, hu, (h u).mp hu, ih s1 s2 h]
    · have hu2 : u ∉ s2 := fun hx => hu ((h u).mpr hx)
      simp only [firstOccAux, if_neg hu, if_neg hu2]
      rw [ih (u :: s1) (u :: s2) (by intro x; simp [h x])]

theorem keys_aggregate (stream : List (String × Row)) (agg : List (String × SchemeResult)) :
    (aggregate stream agg).map Prod.fst =
      agg.map Prod.fst ++ firstOccAux (agg.map Prod.fst) (keptUrls stream) := by
  induction stream generalizing agg with
  | nil => simp [aggregate, keptUrls, firstOccAux]
  | cons p s ih =>
    obtain ⟨q, r⟩ := p
    by_cases hk : keepRow r = true
    · cases h2 : alookup (rowUrl r) agg with
      | some e =>
        have hmem : rowUrl r ∈ agg.map Prod.fst :=
          (alookup_isSome_iff _ _).mp (by simp [h2])
        rw [aggregate, processRow_dup q agg r hk (by simp [h2]), ih]
        simp [keptUrls, hk, firstOccAux, hmem]
      | none =>
        have hmem : rowUrl r ∉ agg.map Prod.fst := (alookup_eq_none_iff _ _).mp h2
        rw [aggregate, processRow_ins q agg r hk h2, ih]
        simp only [List.map_append, List.map_cons, List.map_nil]
        have hku : keptUrls ((q, r) :: s) = rowUrl r :: keptUrls s := by
          simp [keptUrls, hk]
        rw [hku]
        simp only [firstOccAux, if_neg hmem]
        rw [firstOccAux_congr (keptUrls s) (agg.map Prod.fst ++ [rowUrl r])
          (rowUrl r :: agg.map Prod.fst) (by intro x; simp [or_comm])]
        simp
    · rw [aggregate, processRow_skip q agg r (by simpa using hk), ih]
      have hku : keptUrls ((q, r) :: s) = keptUrls s := by
        simp [keptUrls, hk]
      rw [hku]

theorem map_ext_mem {α β : Type} (l : List α) (f g : α → β) (h : ∀ a ∈ l, f a = g a) :
    l.map f = l.map g := by
  induction l with
  | nil => rfl
  | cons a t ih =>
    simp only [List.map_cons, h a (List.mem_cons_self a t)]
    rw [ih (fun x hx => h x (List.mem_cons_of_mem a hx))]

theorem append_ne_empty_right (s t : String) (h : t ≠ "") : s ++ t ≠ "" := by
  obtain ⟨a⟩ := s
  obtain ⟨b⟩ := t
  intro hc
  apply h
  have hd : a ++ b = ([] : List Char) := congrArg String.data hc
  have hb : b = [] := (List.append_eq_nil.mp hd).2
  subst hb
  rfl

/-- The aggregated output obtained from demoRows, used by several witnesses. -/
def demoOutput : List SchemeResult :=
  [⟨"Portal A", "https://scholarships.gov.in/x", "first",
    "Kerala student scholarship government"⟩,
   ⟨"Portal B", "https://www.mygov.in/y", "second",
    "Kerala student scholarship government"⟩]

/-- C1: in every aggregation run of duckduckgo_scheme_search that returns a
result list, no two entries of that list share the same url. -/
theorem c1_output_urls_nodup (provider : String → Nat → Except String (List Row))
    (user : UserProfile) (n : Nat) (out : List SchemeResult)
    (h : duckduckgo_scheme_search provider user n = Except.ok out) :
    (out.map SchemeResult.url).Nodup := by
  obtain ⟨agg, hloop, rfl⟩ := search_ok_elim provider user n out h
  have hg := goodAgg_searchLoop provider n (build_queries user) [] agg hloop goodAgg_nil
  rw [List.map_map]
  have hmap : agg.map (SchemeResult.url ∘ Prod.snd) = agg.map Prod.fst :=
    map_ext_mem _ _ _ (fun p hp => (hg.2 p hp).1)
  rw [hmap]
  exact hg.1

theorem c1_witness : (demoOutput.map SchemeResult.url).Nodup :=
  c1_output_urls_nodup (pureProvider demoRows) keralaUser 10 demoOutput rfl

/-- C2: for every profile whose state and category are non-empty strings,
build_queries returns exactly 4 non-empty strings, and the third is always
"Central sector scholarship income government". -/
theorem c2_build_queries_shape (u : UserProfile) (hs : u.state ≠ "") (hc : u.category ≠ "") :
    (build_queries u).length = 4 ∧
    (∀ q ∈ build_queries u, q ≠ "") ∧
    (build_queries u)[2]? = some "Central sector scholarship income government" := by
  refine ⟨rfl, ?_, rfl⟩
  intro q hq
  simp only [build_queries, List.mem_cons, List.not_mem_nil, or_false] at hq
  rcases hq with rfl | rfl | rfl | rfl
  · exact append_ne_empty_right _ _ (by decide)
  · exact append_ne_empty_right _ _ (by decide)
  · decide
  · exact append_ne_empty_right _ _ (by decide)

theorem c2_witness :
    (build_queries keralaUser).length = 4 ∧
    (∀ q ∈ build_queries keralaUser, q ≠ "") ∧
    (build_queries keralaUser)[2]? =
      some "Central sector scholarship income government" :=
  c2_build_queries_shape keralaUser (by decide) (by decide)

/-- C3: every output entry carries the source_query, title and snippet of the
row that first surfaced its url in the processing order (queries in their
fixed order, provider order within a query); in particular a url returned
under two different queries is recorded under the earlier query. -/
theorem c3_first_query_wins (rows : String → List Row) (user : UserProfile) (n : Nat)
    (out : List SchemeResult) (e : SchemeResult)
    (h : duckduckgo_scheme_search (pureProvider rows) user n = Except.ok out)
    (he : e ∈ out) :
    ∃ q r, firstHit (queryStream (build_queries user) rows) e.url = some (q, r) ∧
      e.source_query = q ∧ e.title = r.title.getD "" ∧ e.snippet = r.body.getD "" := by
  have hs := search_pure rows user n
  rw [h] at hs
  have hout := Except.ok.inj hs
  subst hout
  have hg := goodAgg_aggregate (queryStream (build_queries user) rows) [] goodAgg_nil
  obtain ⟨⟨u, e'⟩, hp, he'⟩ := List.mem_map.mp he
  have he'' : e' = e := he'
  subst he''
  have hurl : e'.url = u := (hg.2 (u, e') hp).1
  have hl : alookup u (aggregate (queryStream (build_queries user) rows) []) = some e' :=
    mem_alookup u e' _ hg.1 hp
  have hchar := alookup_aggregate (queryStream (build_queries user) rows) [] u
  simp only [alookup] at hchar
  rw [hl] at hchar
  cases hf : firstHit (queryStream (build_queries user) rows) u with
  | none => rw [hf] at hchar; cases hchar
  | some p =>
    obtain ⟨q, r⟩ := p
    rw [hf] at hchar
    simp only [Option.map_some'] at hchar
    have he2 : e' = mkEntry q r := Option.some.inj hchar
    refine ⟨q, r, ?_, ?_, ?_, ?_⟩
    · rw [hurl]; exact hf
    · rw [he2]; rfl
    · rw [he2]; rfl
    · rw [he2]; rfl

theorem c3_witness :
    ∃ q r, firstHit (queryStream (build_queries keralaUser) demoRows)
        "https://scholarships.gov.in/x" = some (q, r) ∧
      "Kerala student scholarship government" = q ∧
      "Portal A" = r.title.getD "" ∧ "first" = r.body.getD "" :=
  c3_first_query_wins demoRows keralaUser 10 demoOutput
    ⟨"Portal A", "https://scholarships.gov.in/x", "first",
      "Kerala student scholarship government"⟩ rfl
    (List.mem_cons_self _ _)

/-- C4: every entry in a successful output has a url containing at least one
of the ALLOWED_DOMAINS strings as a case-sensitive substring. -/
theorem c4_output_urls_allowed (provider : String → Nat → Except String (List Row))
    (user : UserProfile) (n : Nat) (out : List SchemeResult)
    (h : duckduckgo_scheme_search provider user n = Except.ok out) :
    ∀ e ∈ out, ∃ domain ∈ ALLOWED_DOMAINS, strIn domain e.url = true := by
  obtain ⟨agg, hloop, rfl⟩ := search_ok_elim provider user n out h
  have hg := goodAgg_searchLoop provider n (build_queries user) [] agg hloop goodAgg_nil
  intro e he
  obtain ⟨⟨u, e'⟩, hp, he'⟩ := List.mem_map.mp he
  have he'' : e' = e := he'
  subst he''
  obtain ⟨h1, _, h3⟩ := hg.2 (u, e') hp
  rw [h1]
  simpa [allowedUrl, List.any_eq_true] using h3

theorem c4_witness :
    ∃ domain ∈ ALLOWED_DOMAINS, strIn domain "https://scholarships.gov.in/x" = true :=
  c4_output_urls_allowed (pureProvider demoRows) keralaUser 10 demoOutput rfl
    ⟨"Portal A", "https://scholarships.gov.in/x", "first",
      "Kerala student scholarship government"⟩ (by decide)

/-- A provider row whose url contains "gov.in" only as an interior substring
of a non-government host. -/
def hostileRows : String → List Row := fun q =>
  if q = "Kerala student scholarship government" then
    [⟨some "Fake Portal", some "https://fakegov.in.example.com/x", some "unofficial"⟩]
  else []

/-- C5: the allow-list check is a raw substring test, not a host-suffix test:
the url "https://fakegov.in.example.com/x" contains "gov.in" as a substring
although its host "fakegov.in.example.com" does not end in "gov.in", and the
row carrying it passes the filter and appears in the output. -/
theorem c5_substring_not_suffix :
    strIn "gov.in" "https://fakegov.in.example.com/x" = true ∧
    strEndsIn "gov.in" "fakegov.in.example.com" = false ∧
    duckduckgo_scheme_search (pureProvider hostileRows) keralaUser 10 =
      Except.ok [⟨"Fake Portal", "https://fakegov.in.example.com/x", "unofficial",
        "Kerala student scholarship government"⟩] :=
  ⟨rfl, rfl, rfl⟩

theorem foldl_filter_empty (q : String) (rs : List Row)
    (agg : List (String × SchemeResult)) :
    (rs.filter (fun r => decide (rowUrl r ≠ ""))).foldl (processRow q) agg =
      rs.foldl (processRow q) agg := by
  induction rs generalizing agg with
  | nil => rfl
  | cons r rest ih =>
    by_cases hr : rowUrl r = ""
    · have hstep : processRow q agg r = agg := by simp [processRow, hr]
      rw [List.filter_cons, if_neg (by simp [hr]), List.foldl_cons, hstep]
      exact ih agg
    · rw [List.filter_cons, if_pos (by simp [hr]), List.foldl_cons, List.foldl_cons]
      exact ih (processRow q agg r)

theorem aggregate_queryStream_filter (rows : String → List Row) (queries : List String)
    (agg : List (String × SchemeResult)) :
    aggregate (queryStream queries
        (fun q => (rows q).filter (fun r => decide (rowUrl r ≠ "")))) agg =
      aggregate (queryStream queries rows) agg := by
  induction queries generalizing agg with
  | nil => rfl
  | cons q qs ih =>
    rw [queryStream, queryStream, aggregate_append, aggregate_append,
      aggregate_map_query, aggregate_map_query, foldl_filter_empty, ih]

/-- C6: rows whose href is missing or empty are excluded and have no effect:
deleting exactly those rows from every provider response leaves the whole
aggregation result unchanged (and neither run raises an error). -/
theorem c6_empty_url_rows_ignored (rows : String → List Row) (user : UserProfile) (n : Nat) :
    duckduckgo_scheme_search
        (pureProvider (fun q => (rows q).filter (fun r => decide (rowUrl r ≠ "")))) user n =
      duckduckgo_scheme_search (pureProvider rows) user n := by
  rw [search_pure, search_pure, aggregate_queryStream_filter]

/-- C7: if the provider raises on any of the built queries, the whole
aggregation fails with an error and no result list is returned. -/
theorem c7_provider_error_propagates (provider : String → Nat → Except String (List Row))
    (user : UserProfile) (n : Nat) (q : String) (err : String)
    (hq : q ∈ build_queries user) (he : provider q n = Except.error err) :
    ∃ e, duckduckgo_scheme_search provider user n = Except.error e := by
  cases hres : duckduckgo_scheme_search provider user n with
  | error e => exact ⟨e, rfl⟩
  | ok out =>
    exfalso
    obtain ⟨agg, hloop, _⟩ := search_ok_elim provider user n out hres
    obtain ⟨rws, hrws⟩ := searchLoop_ok_provider provider n _ [] agg hloop q hq
    rw [he] at hrws
    cases hrws

/-- A provider that fails on every query. -/
def failingProvider : String → Nat → Except String (List Row) :=
  fun _ _ => Except.error "network unreachable"

theorem c7_witness :
    ∃ e, duckduckgo_scheme_search failingProvider keralaUser 10 = Except.error e :=
  c7_provider_error_propagates failingProvider keralaUser 10
    "Central sector scholarship income government" "network unreachable"
    (by decide) rfl

/-- C8: a successful find-schemes response echoes the profile's state, its
count equals the length of its schemes list, the schemes are exactly the
aggregator's output, and the disclaimer is the fixed string. -/
theorem c8_envelope_shape (provider : String → Nat → Except String (List Row))
    (user : UserProfile) (env : Envelope)
    (h : find_schemes provider user = Except.ok env) :
    env.query_state = user.state ∧
    env.count = env.schemes.length ∧
    duckduckgo_scheme_search provider user 10 = Except.ok env.schemes ∧
    env.disclaimer =
      "Final eligibility is determined by the concerned government department." := by
  unfold find_schemes at h
  cases hs : duckduckgo_scheme_search provider user 10 with
  | error e => rw [hs] at h; cases h
  | ok schemes =>
    rw [hs] at h
    have henv := Except.ok.inj h
    subst henv
    exact ⟨rfl, rfl, rfl, rfl⟩

/-- The envelope produced for keralaUser with demoRows. -/
def demoEnvelope : Envelope :=
  ⟨"Kerala", 2, demoOutput,
    "Final eligibility is determined by the concerned government department."⟩

theorem c8_witness :
    demoEnvelope.query_state = keralaUser.state ∧
    demoEnvelope.count = demoEnvelope.schemes.length ∧
    duckduckgo_scheme_search (pureProvider demoRows) keralaUser 10 =
      Except.ok demoEnvelope.schemes ∧
    demoEnvelope.disclaimer =
      "Final eligibility is determined by the concerned government department." :=
  c8_envelope_shape (pureProvider demoRows) keralaUser demoEnvelope rfl

/-- C9: the output list is in insertion order: its urls are exactly the
first-occurrence deduplication of the urls of the filter-surviving rows,
taken in query order and, within a query, provider order. -/
theorem c9_insertion_order (rows : String → List Row) (user : UserProfile) (n : Nat)
    (out : List SchemeResult)
    (h : duckduckgo_scheme_search (pureProvider rows) user n = Except.ok out) :
    out.map SchemeResult.url =
      firstOccAux [] (keptUrls (queryStream (build_queries user) rows)) := by
  have hs := search_pure rows user n
  rw [h] at hs
  have hout := Except.ok.inj hs
  subst hout
  have hg := goodAgg_aggregate (queryStream (build_queries user) rows) [] goodAgg_nil
  rw [List.map_map]
  have hmap : (aggregate (queryStream (build_queries user) rows) []).map
      (SchemeResult.url ∘ Prod.snd) =
      (aggregate (queryStream (build_queries user) rows) []).map Prod.fst :=
    map_ext_mem _ _ _ (fun p hp => (hg.2 p hp).1)
  rw [hmap]
  simpa using keys_aggregate (queryStream (build_queries user) rows) []

theorem c9_witness :
    demoOutput.map SchemeResult.url =
      firstOccAux [] (keptUrls (queryStream (build_queries keralaUser) demoRows)) :=
  c9_insertion_order demoRows keralaUser 10 demoOutput rfl

/-- C10: a row with an allowed non-empty url but a missing title or a missing
body field is not skipped: if it is the row that first surfaces its url, the
output contains an entry for that url carrying the row's title and body with
each missing field defaulting to the empty string. -/
theorem c10_missing_title_body_kept (rows : String → List Row) (user : UserProfile)
    (n : Nat) (out : List SchemeResult) (q : String) (r : Row) (u : String)
    (h : duckduckgo_scheme_search (pureProvider rows) user n = Except.ok out)
    (hr : r.href = some u) (hu : u ≠ "") (hd : allowedUrl u = true)
    (hmiss : r.title = none ∨ r.body = none)
    (hf : firstHit (queryStream (build_queries user) rows) u = some (q, r)) :
    (⟨r.title.getD "", u, r.body.getD "", q⟩ : SchemeResult) ∈ out := by
  have hs := search_pure rows user n
  rw [h] at hs
  have hout := Except.ok.inj hs
  subst hout
  have hl := alookup_aggregate (queryStream (build_queries user) rows) [] u
  simp only [alookup, hf, Option.map_some'] at hl
  have hmem := alookup_mem u (mkEntry q r) _ hl
  have hentry : mkEntry q r =
      (⟨r.title.getD "", u, r.body.getD "", q⟩ : SchemeResult) := by
    simp [mkEntry, rowUrl, hr]
  rw [← hentry]
  exact List.mem_map.mpr ⟨(u, mkEntry q r), hmem, rfl⟩

/-- A provider row with an allowed url, a present title and a missing body. -/
def bareRows : String → List Row := fun q =>
  if q = "Kerala student scholarship government" then
    [⟨some "Bare Portal", some "https://scholarships.gov.in/bare", none⟩]
  else []

theorem c10_witness :
    (⟨"Bare Portal", "https://scholarships.gov.in/bare", "",
      "Kerala student scholarship government"⟩ : SchemeResult) ∈
      [(⟨"Bare Portal", "https://scholarships.gov.in/bare", "",
        "Kerala student scholarship government"⟩ : SchemeResult)] :=
  c10_missing_title_body_kept bareRows keralaUser 10
    [⟨"Bare Portal", "https://scholarships.gov.in/bare", "",
      "Kerala student scholarship government"⟩]
    "Kerala student scholarship government"
    ⟨some "Bare Portal", some "https://scholarships.gov.in/bare", none⟩
    "https://scholarships.gov.in/bare"
    rfl rfl (by decide) rfl (Or.inr rfl) rfl

end VaaniCare
